import Mathlib

/-!
Verification of the ICD-code validation scripts (`agent.py`, `finaltester.py`,
`prompt.py`, `schema.py`).

Shallow-embedding conventions:
* Agent replies are modelled as an oracle `Nat → String`: the n-th call to
  `generate_reply` (counted from the start of the run) returns `oracle n`.
  Prompts are built faithfully where a claim is about them, but the oracle is
  indexed by call order, matching quantification over "every agent reply
  sequence".
* Third-party library calls are parameters:
  `parseRAG : String → Option (List String)` abstracts
  `RAGOutput.parse_raw(...).finalCodes` (a `ValidationError` is `none`);
  `ont : String → Option String` abstracts `simple_icd_10.get_description`
  (a `ValueError` is `none`); `jload : String → Option PyVal` abstracts
  `json.loads` (any exception is `none`).
* Python strings are modelled over ASCII characters; `\s`, `strip`, `split`
  and `\b` use the ASCII whitespace / word-character classes.
* Fallible Python code (`raise`) is modelled with `Except`/`Option`.
-/

/-- ASCII model of Python's whitespace class `\s` (also used by `str.strip`
and `str.split()`). -/
def isPySpace (c : Char) : Bool :=
  c = ' ' || c = '\t' || c = '\n' || c = '\x0d' || c = '\x0b' || c = '\x0c'

/-- `str.strip()` on a character list. -/
def pyStripChars (cs : List Char) : List Char :=
  ((cs.dropWhile isPySpace).reverse.dropWhile isPySpace).reverse

/-- `str.strip()` on a string. -/
def pyStripS (s : String) : String := String.mk (pyStripChars s.data)

/-- Number of words of `len(s.split())`: maximal runs of non-whitespace. -/
def countWordsAux (inWord : Bool) : List Char → Nat
  | [] => 0
  | c :: rs =>
    if isPySpace c then countWordsAux false rs
    else (if inWord then 0 else 1) + countWordsAux true rs

/-- `len(s.split())` for a Python string. -/
def countWords (s : String) : Nat := countWordsAux false s.data

/-- Substring test: `needle in hay` for Python strings (on char lists). -/
def containsSub (hay needle : List Char) : Bool :=
  match hay with
  | [] => needle.isEmpty
  | _ :: t => needle.isPrefixOf hay || containsSub t needle

/-- `needle in hay` for Python strings. -/
def strContains (hay needle : String) : Bool := containsSub hay.data needle.data

/-- `s.upper()` (ASCII). -/
def pyUpper (s : String) : String := String.mk (s.data.map Char.toUpper)

/-- `s.startswith(pre)` (in particular, every string starts with `""`). -/
def pyStartsWith (s pre : String) : Bool := pre.data.isPrefixOf s.data

/-- `s.split("\n")`: split at every newline, keeping empty parts. -/
def splitLinesAux (acc : List Char) : List Char → List String
  | [] => [String.mk acc.reverse]
  | c :: rs =>
    if c = '\n' then String.mk acc.reverse :: splitLinesAux [] rs
    else splitLinesAux (c :: acc) rs

/-- `s.split("\n")` on a string. -/
def pySplitNl (s : String) : List String := splitLinesAux [] s.data

/-- `"\n".join(parts)`. -/
def pyJoinNl : List String → String
  | [] => ""
  | [x] => x
  | x :: y :: rest => x ++ "\n" ++ pyJoinNl (y :: rest)

/-- `s.replace(pat, rep)` for a nonempty `pat`: leftmost, non-overlapping
replacement of every occurrence. Fuel-based structural recursion. -/
def replAux (pat rep : List Char) : Nat → List Char → List Char
  | 0, rest => rest
  | _ + 1, [] => []
  | fuel + 1, c :: rs =>
    if pat.isPrefixOf (c :: rs) then
      rep ++ replAux pat rep fuel ((c :: rs).drop pat.length)
    else c :: replAux pat rep fuel rs

/-- `s.replace(pat, rep)` on strings (for the nonempty patterns the source
uses). -/
def pyReplace (s pat rep : String) : String :=
  String.mk (replAux pat.data rep.data s.data.length s.data)

/-- `int(s)` for a Python string: optional surrounding whitespace, an optional
sign, then a nonempty digit run; anything else raises (`none`). -/
def digitsToNat (cs : List Char) : Nat :=
  cs.foldl (fun a c => a * 10 + (c.toNat - 48)) 0

/-- `int(s)` on a string, `none` when `ValueError` is raised. -/
def pyStrToInt (s : String) : Option Int :=
  let cs := pyStripChars s.data
  match cs with
  | '+' :: rest =>
    if rest ≠ [] && rest.all Char.isDigit then some (digitsToNat rest) else none
  | '-' :: rest =>
    if rest ≠ [] && rest.all Char.isDigit then some (-(digitsToNat rest : Int)) else none
  | _ =>
    if cs ≠ [] && cs.all Char.isDigit then some (digitsToNat cs) else none

/-! ### The regex fallback of `extract_icd_codes`

`re.findall(r'\b[A-Z]\d{1,2}\.?\d*\b', response)`, implemented with the
backtracking semantics of Python's `re` module (greedy quantifiers, leftmost
non-overlapping matches). -/

/-- Python `\w` over ASCII. -/
def isWordChar (c : Char) : Bool := c.isAlpha || c.isDigit || c = '_'

/-- Word-character test on an optional char (string edges count as non-word). -/
def wordO : Option Char → Bool
  | none => false
  | some c => isWordChar c

/-- Match `\d*\b` greedily at the current position; `prev` is the character
just before the position. Returns the number of characters consumed. -/
def dstarB (prev : Char) : List Char → Option Nat
  | [] => if isWordChar prev then some 0 else none
  | c :: rs =>
    if c.isDigit then
      match dstarB c rs with
      | some n => some (n + 1)
      | none => if isWordChar prev != isWordChar c then some 0 else none
    else
      if isWordChar prev != isWordChar c then some 0 else none

/-- Match `\.?\d*\b` greedily; `prev` is the last consumed digit. -/
def dotTail (prev : Char) : List Char → Option Nat
  | [] => dstarB prev []
  | c :: rs =>
    if c = '.' then
      match dstarB '.' rs with
      | some n => some (n + 1)
      | none => dstarB prev (c :: rs)
    else dstarB prev (c :: rs)

/-- Match `\d{1,2}\.?\d*\b` greedily (two digits preferred over one). -/
def digitsPart : List Char → Option Nat
  | [] => none
  | c :: rs =>
    if c.isDigit then
      match rs with
      | c2 :: rs2 =>
        if c2.isDigit then
          match dotTail c2 rs2 with
          | some n => some (n + 2)
          | none =>
            match dotTail c rs with
            | some n => some (n + 1)
            | none => none
        else
          match dotTail c rs with
          | some n => some (n + 1)
          | none => none
      | [] =>
        match dotTail c [] with
        | some n => some (n + 1)
        | none => none
    else none

/-- Attempt the whole pattern `\b[A-Z]\d{1,2}\.?\d*\b` at the current
position (`prev` = preceding character). Returns the match length. -/
def matchAt (prev : Option Char) : List Char → Option Nat
  | [] => none
  | c :: rs =>
    if ('A' ≤ c && c ≤ 'Z') && wordO prev = false then
      match digitsPart rs with
      | some n => some (n + 1)
      | none => none
    else none

/-- `re.findall` scan: leftmost, non-overlapping matches. The fuel argument
makes the recursion structural; every step consumes at least one character,
so fuel equal to the text length is always sufficient. -/
def findallAux : Nat → Option Char → List Char → List String
  | 0, _, _ => []
  | _ + 1, _, [] => []
  | fuel + 1, prev, c :: rs =>
    match matchAt prev (c :: rs) with
    | some n =>
      let k := n - 1
      String.mk (c :: rs.take k) ::
        findallAux fuel (some ((c :: rs.take k).getLastD c)) (rs.drop k)
    | none => findallAux fuel (some c) rs

/-- `re.findall(r'\b[A-Z]\d{1,2}\.?\d*\b', s)`. -/
def pyFindAll (s : String) : List String := findallAux s.data.length none s.data

/-- Does any position of the text match the code pattern? -/
def hasMatchAux (prev : Option Char) : List Char → Bool
  | [] => false
  | c :: rs => (matchAt prev (c :: rs)).isSome || hasMatchAux (some c) rs

/-- `s` contains a substring matching `\b[A-Z]\d{1,2}\.?\d*\b`. -/
def containsCodeShape (s : String) : Bool := hasMatchAux none s.data

/-! ### Shared pipeline functions (identical in `agent.py` and `finaltester.py`) -/

/-- `extract_icd_codes` (`agent.py`/`finaltester.py` lines 42-47):
`RAGOutput.parse_raw` (abstracted by `parseRAG`; a `ValidationError` is
`none`) with the regex fallback. -/
def extract_icd_codes (parseRAG : String → Option (List String))
    (response : String) : List String :=
  match parseRAG response with
  | some finalCodes => finalCodes
  | none => pyFindAll response

/-- First-match lookup in an association list (Python `dict` access). -/
def lookupStr : List (String × String) → String → Option String
  | [], _ => none
  | (k, v) :: rest, c => if k = c then some v else lookupStr rest c

/-- Python `dict` assignment `d[k] = v`: update in place or append. -/
def dictInsert : List (String × String) → String → String → List (String × String)
  | [], k, v => [(k, v)]
  | (k0, v0) :: rest, k, v =>
    if k0 = k then (k0, v) :: rest else (k0, v0) :: dictInsert rest k v

/-- The left-to-right dict-building loop of `get_icd_descriptions`. -/
def buildDescs (ont : String → Option String)
    (acc : List (String × String)) : List String → List (String × String)
  | [] => acc
  | code :: rest =>
    buildDescs ont
      (dictInsert acc code ((ont code).getD "Description not found")) rest

/-- `get_icd_descriptions` (lines 49-56): builds a dict mapping each code to
`icd.get_description(code)` (abstracted by `ont`), with the sentinel
`"Description not found"` when a `ValueError` is raised (`ont code = none`). -/
def get_icd_descriptions (ont : String → Option String)
    (icd_codes : List String) : List (String × String) :=
  buildDescs ont [] icd_codes

namespace Agent

/-- `clean_json_response` (`agent.py` lines 58-67): strip, then drop an
opening and a closing markdown code fence when present. -/
def clean_json_response (response : String) : String :=
  let response := pyStripS response
  if pyStartsWith response "```" then
    let parts := pySplitNl response
    let parts :=
      if pyStartsWith (pyStripS (parts.headD "")) "```" then parts.tail else parts
    let parts :=
      if parts ≠ [] && pyStripS (parts.getLastD "") = "```" then parts.dropLast
      else parts
    pyStripS (pyJoinNl parts)
  else response

end Agent

namespace Finaltester

/-- `clean_json_response` (`finaltester.py` lines 58-67): the same structure
as the `agent.py` version, but every occurrence of the fence literal is the
empty string in the source, verbatim. -/
def clean_json_response (response : String) : String :=
  let response := pyStripS response
  if pyStartsWith response "" then
    let parts := pySplitNl response
    let parts :=
      if pyStartsWith (pyStripS (parts.headD "")) "" then parts.tail else parts
    let parts :=
      if parts ≠ [] && pyStripS (parts.getLastD "") = "" then parts.dropLast
      else parts
    pyStripS (pyJoinNl parts)
  else response

end Finaltester

/-! ### `validate_icd_codes` (lines 69-105 of both scripts)

The loop is embedded with an explicit call counter (`k` indexes the oracle)
and a per-round log used by the theorems: each round records the candidate
set, the partition into confirmed/rejected codes, and — when issued — the
alternative-suggestion query together with the codes extracted from its
reply. -/

/-- One validation round's record. -/
structure RoundLog where
  candidates : List String
  confirmed : List String
  rejected : List String
  alt : Option (List String)
deriving Repr, DecidableEq

/-- Result of a `validate_icd_codes` run, with call count and round logs. -/
structure ValidateRun where
  codes : List String
  flag : Bool
  calls : Nat
  logs : List RoundLog
deriving Repr, DecidableEq

/-- The inner `for code in validated_codes` loop: one confirmation query per
code, partitioning into confirmed and rejected (a code is confirmed when
`"CONFIRMED" in response.upper()`). Returns the two lists and the next call
index. -/
def splitConfirmed (oracle : Nat → String) (k : Nat) :
    List String → List String × List String × Nat
  | [] => ([], [], k)
  | c :: cs =>
    let response := oracle k
    let rest := splitConfirmed oracle (k + 1) cs
    if strContains (pyUpper response) "CONFIRMED" then
      (c :: rest.1, rest.2.1, rest.2.2)
    else
      (rest.1, c :: rest.2.1, rest.2.2)

/-- The `while retries < max_retries` loop. `fuel = max_retries - retries`.
`descs` is dead data here (it only feeds prompt text), but is threaded to
mirror the source. -/
def validateLoop (parseRAG : String → Option (List String))
    (oracle : Nat → String) (ont : String → Option String) :
    Nat → Nat → List String → List (String × String) →
    (List String × Bool) × Nat × List RoundLog
  | 0, k, validated, _descs => ((validated, false), k, [])
  | fuel + 1, k, validated, _descs =>
    let sc := splitConfirmed oracle k validated
    let confirmed := sc.1
    let rejected := sc.2.1
    let k1 := sc.2.2
    if rejected = [] then
      ((confirmed, true), k1, [⟨validated, confirmed, rejected, none⟩])
    else
      let response := oracle k1
      let new_codes := extract_icd_codes parseRAG response
      if new_codes = [] then
        ((confirmed, true), k1 + 1, [⟨validated, confirmed, rejected, some []⟩])
      else
        let rest := validateLoop parseRAG oracle ont fuel (k1 + 1) new_codes
          (get_icd_descriptions ont new_codes)
        (rest.1, rest.2.1, ⟨validated, confirmed, rejected, some new_codes⟩ :: rest.2.2)

/-- `validate_icd_codes` with full instrumentation. The `summary` argument
only feeds prompt text in the source and is unused under the reply oracle. -/
def validateRun (parseRAG : String → Option (List String))
    (oracle : Nat → String) (ont : String → Option String)
    (icd_codes : List String) (descriptions : List (String × String))
    (_summary : String) (max_retries : Nat) : ValidateRun :=
  let r := validateLoop parseRAG oracle ont max_retries 0 icd_codes descriptions
  ⟨r.1.1, r.1.2, r.2.1, r.2.2⟩

/-- `validate_icd_codes` (lines 69-105): the pair the Python function
returns. -/
def validate_icd_codes (parseRAG : String → Option (List String))
    (oracle : Nat → String) (ont : String → Option String)
    (icd_codes : List String) (descriptions : List (String × String))
    (summary : String) (max_retries : Nat) : List String × Bool :=
  let r := validateRun parseRAG oracle ont icd_codes descriptions summary max_retries
  (r.codes, r.flag)

/-- Last element of a round-log list. -/
def lastLog : List RoundLog → Option RoundLog
  | [] => none
  | [L] => some L
  | _ :: L :: Ls => lastLog (L :: Ls)

/-! ### `get_confidence_and_evidence` (lines 107-130 of both scripts) -/

/-- Model of the Python values produced by `json.loads`. A float carries the
integer part that Python's `int()` would produce for it. -/
inductive PyVal where
  | int (n : Int)
  | float (ipart : Int)
  | bool (b : Bool)
  | str (s : String)
  | list (xs : List PyVal)
  | dict (kvs : List (String × PyVal))
  | null
deriving Repr

/-- First-match lookup among a dict's key-value pairs. -/
def lookupPy : List (String × PyVal) → String → Option PyVal
  | [], _ => none
  | (k, v) :: rest, c => if k = c then some v else lookupPy rest c

/-- `data.get(key, dflt)`: `none` models the `AttributeError` raised when
`data` is not a dict. -/
def pyDictGet (v : PyVal) (key : String) (dflt : PyVal) : Option PyVal :=
  match v with
  | .dict kvs => some ((lookupPy kvs key).getD dflt)
  | _ => none

/-- Python `int(v)`: `none` models the raised `TypeError`/`ValueError`. -/
def pyIntOfVal : PyVal → Option Int
  | .int n => some n
  | .float i => some i
  | .bool b => some (if b then 1 else 0)
  | .str s => pyStrToInt s
  | _ => none

/-- One attempt's `try` block (lines 120-128): clean, `json.loads`
(abstracted by `jload`), read and convert `score`, read `evidence`, and
apply the acceptance check
`0 <= score <= 100 and isinstance(evidence, list) and evidence`.
`none` covers both a raised exception and a failed check. -/
def confAttempt (jload : String → Option PyVal) (clean : String → String)
    (default_score : Int) (default_evidence : List String)
    (response : String) : Option (Int × List PyVal) :=
  match jload (clean response) with
  | none => none
  | some data =>
    match pyDictGet data "score" (.int default_score) with
    | none => none
    | some sv =>
      match pyIntOfVal sv with
      | none => none
      | some score =>
        match pyDictGet data "evidence" (.list (default_evidence.map .str)) with
        | none => none
        | some ev =>
          match ev with
          | .list xs =>
            if 0 ≤ score && score ≤ 100 && !xs.isEmpty then some (score, xs)
            else none
          | _ => none

/-- `CONFIDENCE_PROMPT_TEMPLATE` from `prompt.py` (lines 59-76). -/
def CONFIDENCE_PROMPT_TEMPLATE : String :=
  "\nDear Esteemed Medical Coding Expert,\n\nWe require your expert evaluation to assign a confidence score to the provided ICD-10 code in relation to the patient’s clinical summary. You are given the ICD-10 code: {ICD_CODE} along with its official description: {DESCRIPTION} and the clinical summary: {SUMMARY}. Your task is to analyze the degree to which the code aligns with the clinical details and to express your evaluation in a strict JSON format with the following keys:\n- \"score\": an integer between 0 and 100 (with scores between 90 and 100 indicating near-perfect alignment, 50 to 89 moderate alignment, and 0 to 49 indicating poor alignment).\n- \"evidence\": a list of 2–3 concise evidence phrases (each no longer than 20 words) that capture the key clinical elements justifying your score.\n\nPlease follow these instructions meticulously:\n1. Read the entire clinical summary, paying close attention to patient history, diagnostic findings, symptoms, and treatment interventions.\n2. Evaluate whether the ICD-10 code and its corresponding description precisely match the clinical scenario.\n3. Based on your evaluation, assign a numerical score that reflects the accuracy of the code.\n4. Identify specific evidence from the clinical summary that supports your scoring decision. Your evidence phrases must be clear, directly linked to the clinical details, and should not exceed 20 words each.\n5. Format your response strictly as a JSON object with only the two required keys (\"score\" and \"evidence\") and no additional commentary or extraneous text.\n\nThis request for a detailed, evidence-based scoring mechanism is crucial for guiding further quality assurance measures and coding improvements. Your methodical approach and clear justification will provide a strong foundation for ongoing refinement of our medical coding practices.\n\nThank you for your expertise and for providing a thorough, evidence-based response.\n"

/-- The attempt-0 scoring prompt (lines 112-115): the template with the
three placeholders substituted (`str.replace` replaces all occurrences). -/
def confidencePrompt (icd_code description summary : String) : String :=
  pyReplace (pyReplace (pyReplace CONFIDENCE_PROMPT_TEMPLATE
    "{ICD_CODE}" icd_code) "{DESCRIPTION}" description) "{SUMMARY}" summary

/-- The corrective re-prompt used on every attempt after the first
(line 117). -/
def CORRECTIVE_PROMPT : String :=
  "Dear Expert, your previous response did not follow the required JSON format. Please re-evaluate and provide a JSON with keys \x27score\x27 and \x27evidence\x27."

/-- A confidence result: the returned dict with keys score and evidence. -/
structure ConfResult where
  score : Int
  evidence : List PyVal
deriving Repr

/-- The `while attempt <= max_retries` loop of `get_confidence_and_evidence`.
`fuel` is the number of attempts left (`max_retries + 1 - attempt`); the
function returns the result, the next oracle index, and the list of prompts
sent, in order. -/
def confLoop (jload : String → Option PyVal) (oracle : Nat → String)
    (clean : String → String) (prompt0 : String)
    (default_score : Int) (default_evidence : List String) :
    Nat → Nat → Bool → ConfResult × Nat × List String
  | 0, k, _ => (⟨default_score, default_evidence.map .str⟩, k, [])
  | fuel + 1, k, isFirst =>
    let prompt := if isFirst then prompt0 else CORRECTIVE_PROMPT
    let response := oracle k
    match confAttempt jload clean default_score default_evidence response with
    | some (s, xs) => (⟨s, xs⟩, k + 1, [prompt])
    | none =>
      let rest := confLoop jload oracle clean prompt0 default_score
        default_evidence fuel (k + 1) false
      (rest.1, rest.2.1, prompt :: rest.2.2)

/-- `get_confidence_and_evidence` (lines 107-130), parameterized by the
`clean_json_response` of the hosting script. `k` is the oracle index of the
first call; the source defaults are `max_retries = 2`, `default_score = 50`,
`default_evidence = None` (replaced by `["No evidence provided"]`). -/
def get_confidence_and_evidence (jload : String → Option PyVal)
    (oracle : Nat → String) (clean : String → String) (k : Nat)
    (icd_code description summary : String) (max_retries : Nat)
    (default_score : Int) (default_evidence : Option (List String)) :
    ConfResult × Nat × List String :=
  let de := default_evidence.getD ["No evidence provided"]
  confLoop jload oracle clean (confidencePrompt icd_code description summary)
    default_score de (max_retries + 1) k true

/-! ### `extract_valid_evidence` (`finaltester.py` lines 132-139) -/

/-- `re.split(r'(?<=[.!?])\s+', summary)`: split on maximal whitespace runs
preceded by a sentence-ending punctuation mark. Fuel-based structural
recursion (each step consumes at least one character). -/
def splitSentAux : Nat → Option Char → List Char → List Char → List String
  | 0, _, acc, rest => [String.mk (acc.reverse ++ rest)]
  | _ + 1, _, acc, [] => [String.mk acc.reverse]
  | fuel + 1, prev, acc, c :: rs =>
    if isPySpace c && (prev = some '.' || prev = some '!' || prev = some '?') then
      String.mk acc.reverse ::
        splitSentAux fuel (some c) [] (rs.dropWhile isPySpace)
    else
      splitSentAux fuel (some c) (c :: acc) rs

/-- `re.split(r'(?<=[.!?])\s+', s)`. -/
def splitSentences (s : String) : List String :=
  splitSentAux s.data.length none [] s.data

namespace Finaltester

/-- `extract_valid_evidence` (lines 132-139): keep sentences with more than
5 words (stripped), defaulting to `["No evidence provided"]`. -/
def extract_valid_evidence (summary : String) : List String :=
  let sentences := splitSentences summary
  let valid_sentences :=
    (sentences.filter (fun sentence => 5 < countWords sentence)).map pyStripS
  if valid_sentences ≠ [] then valid_sentences else ["No evidence provided"]

end Finaltester

/-! ### Per-model drivers (`process_model_icd_codes`) -/

/-- The RAG-output record consumed by the drivers: a Python dict with any of
the two input shapes. A `none` field models an absent key; the summary
entries are modelled by the strings `entry.get("summary", "")` /
`entry.get("text", "")` that the drivers extract from them. -/
structure RagInput where
  dxCodes : Option (List String)
  finalCodes : Option (List String)
  summaryInfo : Option (List String)
  content : Option (List String)

/-- `get_icd_descriptions([code])[code]`: in the source this dict access
always succeeds, so the `getD` default is never used. -/
def descOne (ont : String → Option String) (code : String) : String :=
  (lookupStr (get_icd_descriptions ont [code]) code).getD "Description not found"

namespace Agent

/-- One element of `final_results` in `agent.py` (lines 143-147). -/
structure ResultEntry where
  icd_code : String
  confidence : Int
  evidence : List PyVal
deriving Repr

/-- The `for code in final_codes` loop of `agent.py` (lines 140-147),
threading the oracle call index. Each iteration calls
`get_confidence_and_evidence` with the source defaults. -/
def confFold (jload : String → Option PyVal) (oracle : Nat → String)
    (ont : String → Option String) (summary : String) :
    Nat → List String → List ResultEntry
  | _, [] => []
  | k, code :: rest =>
    let desc := descOne ont code
    let c := get_confidence_and_evidence jload oracle clean_json_response k
      code desc summary 2 50 none
    ⟨code, c.1.score, c.1.evidence⟩ :: confFold jload oracle ont summary c.2.1 rest

/-- `process_model_icd_codes` (`agent.py` lines 133-148). -/
def process_model_icd_codes (parseRAG : String → Option (List String))
    (jload : String → Option PyVal) (oracle : Nat → String)
    (ont : String → Option String) (rag_output : RagInput)
    (num_codes : Nat) : List ResultEntry :=
  let initial_codes := (rag_output.finalCodes.getD []).take num_codes
  let joint_summary := String.intercalate "\n" (rag_output.content.getD [])
  let descriptions := get_icd_descriptions ont initial_codes
  let v := validateRun parseRAG oracle ont initial_codes descriptions joint_summary 3
  let final_codes := v.codes.take num_codes
  confFold jload oracle ont joint_summary v.calls final_codes

end Agent

namespace Finaltester

/-- One element of `final_results` in `finaltester.py` (lines 162-167). -/
structure FTResultEntry where
  code : String
  description : String
  confidence_score : Int
  evidence : List String
deriving Repr, DecidableEq

/-- The `for code in final_codes` loop of `finaltester.py` (lines 157-167). -/
def confFold (jload : String → Option PyVal) (oracle : Nat → String)
    (ont : String → Option String) (summary : String) :
    Nat → List String → List FTResultEntry
  | _, [] => []
  | k, code :: rest =>
    let desc := descOne ont code
    let c := get_confidence_and_evidence jload oracle clean_json_response k
      code desc summary 2 50 none
    let valid_evidence := extract_valid_evidence summary
    ⟨code, desc, c.1.score, valid_evidence⟩ ::
      confFold jload oracle ont summary c.2.1 rest

/-- `process_model_icd_codes` (`finaltester.py` lines 142-168), with the
field-presence branching between the two input shapes. -/
def process_model_icd_codes (parseRAG : String → Option (List String))
    (jload : String → Option PyVal) (oracle : Nat → String)
    (ont : String → Option String) (rag_output : RagInput)
    (num_codes : Nat) : List FTResultEntry :=
  let initial_codes :=
    if rag_output.dxCodes.isSome then (rag_output.dxCodes.getD []).take num_codes
    else (rag_output.finalCodes.getD []).take num_codes
  let joint_summary :=
    if rag_output.summaryInfo.isSome then
      String.intercalate "\n" (rag_output.summaryInfo.getD [])
    else String.intercalate "\n" (rag_output.content.getD [])
  let descriptions := get_icd_descriptions ont initial_codes
  let v := validateRun parseRAG oracle ont initial_codes descriptions joint_summary 3
  let final_codes := v.codes.take num_codes
  confFold jload oracle ont joint_summary v.calls final_codes

end Finaltester

/-! ### `clean_excel_and_generate_json` (`schema.py` lines 4-46)

The spreadsheet parsed by `pandas.read_excel(file_path, dtype=str)` is
modelled as its column names plus rows of optional cell strings (`none` is a
NaN cell). -/

/-- A dataframe read with `dtype=str`. -/
structure DF where
  columns : List String
  rows : List (List (Option String))

/-- A raised `KeyError`. -/
structure KeyError where
  msg : String
deriving Repr, DecidableEq

/-- One `detail` entry of the emitted JSON descriptor. -/
structure FieldDetail where
  fieldName : String
  dataType : String
  size : Int
  pos : String
deriving Repr, DecidableEq

/-- Cell access `row[col]`; `none` is a NaN (or out-of-range) cell. -/
def cellGet (cols : List String) (row : List (Option String)) (c : String) :
    Option String :=
  match cols.findIdx? (· = c) with
  | some i => (row.get? i).getD none
  | none => none

/-- `df['Item'].ffill()`: forward-fill the column at index `i`. -/
def ffillAt (i : Nat) (last : Option String) :
    List (List (Option String)) → List (List (Option String))
  | [] => []
  | row :: rest =>
    let cur := (row.get? i).getD none
    let newv := match cur with | some v => some v | none => last
    row.set i newv :: ffillAt i newv rest

/-- `row['Field'].strip().replace(" ", "").replace("(", "").replace(")", "").replace("-", "")`. -/
def pyFieldName (f : String) : String :=
  pyReplace (pyReplace (pyReplace (pyReplace (pyStripS f) " " "") "(" "") ")" "") "-" ""

/-- The `for idx, row in df_clean.iterrows()` loop (lines 31-44): rows whose
`Size` fails `int()` (or with an unexpectedly missing cell) are skipped, the
index still advancing. -/
def buildDetail (cols : List String) :
    Nat → List (List (Option String)) → List (String × FieldDetail)
  | _, [] => []
  | idx, row :: rest =>
    match cellGet cols row "Field", cellGet cols row "Size",
        cellGet cols row "Position" with
    | some f, some sz, some p =>
      match pyStrToInt sz with
      | some n =>
        (toString (idx + 1), ⟨pyFieldName f, "string", n, pyStripS p⟩) ::
          buildDetail cols (idx + 1) rest
      | none => buildDetail cols (idx + 1) rest
    | _, _, _ => buildDetail cols (idx + 1) rest

/-- `clean_excel_and_generate_json` (`schema.py` lines 4-46): the returned
detail dict (keyed by the one-based row index), or the raised `KeyError`. -/
def clean_excel_and_generate_json (df : DF) :
    Except KeyError (List (String × FieldDetail)) :=
  let cols := df.columns.map pyStripS
  if "Item" ∈ cols then
    let rows1 :=
      match cols.findIdx? (· = "Item") with
      | some i => ffillAt i none df.rows
      | none => df.rows
    if "Field" ∉ cols then .error ⟨"Missing expected column: Field"⟩
    else if "Size" ∉ cols then .error ⟨"Missing expected column: Size"⟩
    else if "Position" ∉ cols then .error ⟨"Missing expected column: Position"⟩
    else
      let df_clean := rows1.filter (fun row =>
        (cellGet cols row "Field").isSome && (cellGet cols row "Size").isSome &&
          (cellGet cols row "Position").isSome)
      .ok (buildDetail cols 0 df_clean)
  else .error ⟨"\x27Item\x27 column not found"⟩

/-! ## Theorems -/

/-- If no position of the text matches the code pattern, the findall scan
returns no matches (for any fuel). -/
theorem findallAux_nil_of_no_match :
    ∀ (fuel : Nat) (prev : Option Char) (cs : List Char),
      hasMatchAux prev cs = false → findallAux fuel prev cs = [] := by
  intro fuel
  induction fuel with
  | zero => intro prev cs _; rfl
  | succ n ih =>
    intro prev cs h
    match cs with
    | [] => rfl
    | c :: rs =>
      simp only [hasMatchAux, Bool.or_eq_false_iff] at h
      obtain ⟨h1, h2⟩ := h
      cases hm : matchAt prev (c :: rs) with
      | some k => rw [hm] at h1; simp at h1
      | none => simp only [findallAux, hm]; exact ih (some c) rs h2

/-- C6: for every input string that is not a valid structured `RAGOutput`
payload (`parseRAG response = none`) and contains no substring matching the
code-shaped pattern `\b[A-Z]\d{1,2}\.?\d*\b`, `extract_icd_codes` returns
the empty list. -/
theorem extract_icd_codes_empty_of_no_code_shape
    (parseRAG : String → Option (List String)) (response : String)
    (h1 : parseRAG response = none)
    (h2 : containsCodeShape response = false) :
    extract_icd_codes parseRAG response = [] := by
  unfold extract_icd_codes
  rw [h1]
  exact findallAux_nil_of_no_match _ _ _ h2

/-- Witness for C6 at a concrete input. -/
theorem extract_icd_codes_empty_witness :
    extract_icd_codes (fun _ => none) "hello world." = [] :=
  extract_icd_codes_empty_of_no_code_shape (fun _ => none) "hello world."
    rfl (by decide)

/-- Looking up in a dict after `d[k] = v`. -/
theorem lookupStr_dictInsert (d : List (String × String)) (k v c : String) :
    lookupStr (dictInsert d k v) c = if k = c then some v else lookupStr d c := by
  induction d with
  | nil => simp [dictInsert, lookupStr]
  | cons kv rest ih =>
    obtain ⟨k0, v0⟩ := kv
    by_cases h0 : k0 = k
    · subst h0
      simp only [dictInsert, if_pos rfl, lookupStr]
      by_cases hc : k0 = c <;> simp [hc]
    · simp only [dictInsert, if_neg h0, lookupStr]
      by_cases hc : k0 = c
      · have hkc : ¬ (k = c) := fun he => h0 (hc.trans he.symm)
        simp [hc, hkc]
      · simp [hc, ih]

/-- Lookup after the description-building loop: every processed code maps to
its description (or the sentinel), other keys fall through to the
accumulator. -/
theorem lookupStr_buildDescs (ont : String → Option String) :
    ∀ (codes : List String) (acc : List (String × String)) (c : String),
      lookupStr (buildDescs ont acc codes) c =
        if c ∈ codes then some ((ont c).getD "Description not found")
        else lookupStr acc c := by
  intro codes
  induction codes with
  | nil => intro acc c; simp [buildDescs]
  | cons x xs ih =>
    intro acc c
    simp only [buildDescs]
    rw [ih]
    by_cases hc : c ∈ xs
    · simp [hc]
    · by_cases hx : x = c
      · subst hx; simp [hc, lookupStr_dictInsert]
      · have hcx : ¬ c = x := fun he => hx he.symm
        have : ¬ c ∈ x :: xs := by simp [List.mem_cons, hc, hcx]
        simp [this, hc, lookupStr_dictInsert, hx]

/-- C7: `get_icd_descriptions` never raises (it is a total function) and its
result maps every input code to its ontology description, with the fixed
sentinel `"Description not found"` for codes the ontology lookup raises on
(`ont code = none`). -/
theorem get_icd_descriptions_defined_on_inputs (ont : String → Option String)
    (icd_codes : List String) (code : String) (h : code ∈ icd_codes) :
    lookupStr (get_icd_descriptions ont icd_codes) code =
      some ((ont code).getD "Description not found") := by
  unfold get_icd_descriptions
  rw [lookupStr_buildDescs]
  simp [h]

/-- Witness for C7: a code absent from the ontology maps to the sentinel. -/
theorem get_icd_descriptions_witness :
    lookupStr (get_icd_descriptions (fun _ => none) ["X99"]) "X99" =
      some "Description not found" :=
  get_icd_descriptions_defined_on_inputs (fun _ => none) ["X99"] "X99"
    (by decide)

/-- C10: `extract_valid_evidence` always returns a non-empty list; it is
either exactly `["No evidence provided"]` or a list in which every element
is a (stripped) sentence split from the summary with more than five
whitespace-separated words. -/
theorem extract_valid_evidence_spec (summary : String) :
    Finaltester.extract_valid_evidence summary ≠ [] ∧
      (Finaltester.extract_valid_evidence summary = ["No evidence provided"] ∨
        ∀ x ∈ Finaltester.extract_valid_evidence summary,
          ∃ s ∈ splitSentences summary, x = pyStripS s ∧ 5 < countWords s) := by
  unfold Finaltester.extract_valid_evidence
  by_cases h :
      ((splitSentences summary).filter
        (fun sentence => 5 < countWords sentence)).map pyStripS = []
  · simp only [h]
    norm_num
  · simp only [h, if_pos, ne_eq, not_false_iff]
    refine ⟨by simp [h], Or.inr ?_⟩
    intro x hx
    simp only [List.mem_map, List.mem_filter, decide_eq_true_eq] at hx
    obtain ⟨s, ⟨hs_mem, hs_words⟩, hs_eq⟩ := hx
    exact ⟨s, hs_mem, hs_eq.symm, hs_words⟩

/-- Witness for C10 at a concrete input. -/
theorem extract_valid_evidence_witness :
    Finaltester.extract_valid_evidence "" ≠ [] :=
  (extract_valid_evidence_spec "").1

/-- C3: the two `clean_json_response` functions are not extensionally equal.
`agent.py` strips markdown code fences and leaves a fence-free response
unchanged after trimming; in `finaltester.py` every fence literal is the
empty string, so the guard `startswith("")` is always true and the first
line of every response is dropped — on the single-line input `"abc"` the
first returns `"abc"` and the second returns `""`. -/
theorem clean_json_response_divergence :
    Agent.clean_json_response "abc" = "abc" ∧
      Finaltester.clean_json_response "abc" = "" := by
  constructor <;> rfl

/-- C8: on a spreadsheet whose (stripped) column set lacks `Position`,
`clean_excel_and_generate_json` raises a `KeyError` — no descriptor is
returned. -/
theorem clean_excel_missing_position_raises (df : DF)
    (h : "Position" ∉ df.columns.map pyStripS) :
    ∃ e : KeyError, clean_excel_and_generate_json df = .error e := by
  unfold clean_excel_and_generate_json
  by_cases hItem : "Item" ∈ df.columns.map pyStripS
  · simp only [hItem, if_pos]
    by_cases hField : "Field" ∈ df.columns.map pyStripS
    · by_cases hSize : "Size" ∈ df.columns.map pyStripS
      · simp [hField, hSize, h]
      · simp [hField, hSize]
    · simp [hField]
  · simp [hItem]

/-- Witness for C8 at a concrete spreadsheet. -/
theorem clean_excel_missing_position_witness :
    ∃ e : KeyError,
      clean_excel_and_generate_json ⟨["Item", "Field", "Size"], []⟩ = .error e :=
  clean_excel_missing_position_raises ⟨["Item", "Field", "Size"], []⟩ (by decide)

/-- An accepted confidence attempt satisfies the acceptance check: score in
`[0, 100]` and a non-empty evidence list. -/
theorem confAttempt_sound (jload : String → Option PyVal)
    (clean : String → String) (ds : Int) (de : List String)
    (response : String) (s : Int) (xs : List PyVal)
    (h : confAttempt jload clean ds de response = some (s, xs)) :
    0 ≤ s ∧ s ≤ 100 ∧ xs ≠ [] := by
  unfold confAttempt at h
  repeat' split at h
  any_goals exact Option.noConfusion h
  simp only [Option.some_inj, Prod.mk.injEq] at h
  obtain ⟨hs, hxs⟩ := h
  subst hs; subst hxs
  rename_i hok
  simp only [Bool.and_eq_true, decide_eq_true_eq, Bool.not_eq_true'] at hok
  exact ⟨hok.1.1, hok.1.2, by simpa [List.isEmpty_iff] using hok.2⟩

/-- The confidence loop's invariant: if the defaults satisfy the acceptance
bounds, so does every possible result. -/
theorem confLoop_sound (jload : String → Option PyVal) (oracle : Nat → String)
    (clean : String → String) (prompt0 : String) (ds : Int) (de : List String)
    (hds0 : 0 ≤ ds) (hds1 : ds ≤ 100) (hde : de ≠ []) :
    ∀ (fuel k : Nat) (isFirst : Bool),
      0 ≤ (confLoop jload oracle clean prompt0 ds de fuel k isFirst).1.score ∧
      (confLoop jload oracle clean prompt0 ds de fuel k isFirst).1.score ≤ 100 ∧
      (confLoop jload oracle clean prompt0 ds de fuel k isFirst).1.evidence ≠ [] := by
  intro fuel
  induction fuel with
  | zero =>
    intro k isFirst
    simp only [confLoop]
    exact ⟨hds0, hds1, by simpa using hde⟩
  | succ n ih =>
    intro k isFirst
    simp only [confLoop]
    cases hA : confAttempt jload clean ds de (oracle k) with
    | some sx =>
      obtain ⟨s, xs⟩ := sx
      have := confAttempt_sound jload clean ds de (oracle k) s xs hA
      simpa using this
    | none => simpa using ih (k + 1) false

/-- C2: with the source's default parameters (`default_score = 50`,
`default_evidence = None`), `get_confidence_and_evidence` always returns a
score in `[0, 100]` and a non-empty evidence list — malformed or
out-of-range replies can only lead to a retry or to the defaults, never to
an escaping exception (the embedding is a total function). -/
theorem get_confidence_and_evidence_range (jload : String → Option PyVal)
    (oracle : Nat → String) (clean : String → String) (k : Nat)
    (icd_code description summary : String) (max_retries : Nat) :
    0 ≤ (get_confidence_and_evidence jload oracle clean k icd_code description
          summary max_retries 50 none).1.score ∧
    (get_confidence_and_evidence jload oracle clean k icd_code description
      summary max_retries 50 none).1.score ≤ 100 ∧
    (get_confidence_and_evidence jload oracle clean k icd_code description
      summary max_retries 50 none).1.evidence ≠ [] := by
  unfold get_confidence_and_evidence
  exact confLoop_sound jload oracle clean _ 50 ["No evidence provided"]
    (by norm_num) (by norm_num) (by simp) (max_retries + 1) k true

/-- Witness for C2 at a concrete call (all attempts malformed). -/
theorem get_confidence_and_evidence_range_witness :
    0 ≤ (get_confidence_and_evidence (fun _ => none) (fun _ => "bad")
          Agent.clean_json_response 0 "E11.9" "d" "s" 2 50 none).1.score ∧
    (get_confidence_and_evidence (fun _ => none) (fun _ => "bad")
      Agent.clean_json_response 0 "E11.9" "d" "s" 2 50 none).1.score ≤ 100 ∧
    (get_confidence_and_evidence (fun _ => none) (fun _ => "bad")
      Agent.clean_json_response 0 "E11.9" "d" "s" 2 50 none).1.evidence ≠ [] :=
  get_confidence_and_evidence_range (fun _ => none) (fun _ => "bad")
    Agent.clean_json_response 0 "E11.9" "d" "s" 2

/-- After the first attempt, every prompt the confidence loop sends is the
corrective re-prompt. -/
theorem confLoop_trace_corrective (jload : String → Option PyVal)
    (oracle : Nat → String) (clean : String → String) (prompt0 : String)
    (ds : Int) (de : List String) :
    ∀ (fuel k : Nat),
      (confLoop jload oracle clean prompt0 ds de fuel k false).2.2 =
        List.replicate
          (confLoop jload oracle clean prompt0 ds de fuel k false).2.2.length
          CORRECTIVE_PROMPT := by
  intro fuel
  induction fuel with
  | zero => intro k; rfl
  | succ n ih =>
    intro k
    simp only [confLoop]
    cases hA : confAttempt jload clean ds de (oracle k) with
    | some sx => rfl
    | none =>
      simp only [List.length_cons, List.replicate_succ, List.cons.injEq]
      exact ⟨rfl, ih (k + 1)⟩

/-- The first prompt of a run is the scoring prompt; the rest are the
corrective re-prompt. -/
theorem confLoop_trace_head (jload : String → Option PyVal)
    (oracle : Nat → String) (clean : String → String) (prompt0 : String)
    (ds : Int) (de : List String) (fuel k : Nat) :
    (confLoop jload oracle clean prompt0 ds de (fuel + 1) k true).2.2 =
      prompt0 ::
        List.replicate
          ((confLoop jload oracle clean prompt0 ds de (fuel + 1) k true).2.2.length - 1)
          CORRECTIVE_PROMPT := by
  simp only [confLoop]
  cases hA : confAttempt jload clean ds de (oracle k) with
  | some sx => rfl
  | none =>
    simp only [List.length_cons, Nat.add_sub_cancel, List.cons.injEq]
    exact ⟨rfl, confLoop_trace_corrective jload oracle clean prompt0 ds de fuel (k + 1)⟩

/-- If every attempt in the budget fails, the loop returns the defaults. -/
theorem confLoop_default (jload : String → Option PyVal)
    (oracle : Nat → String) (clean : String → String) (prompt0 : String)
    (ds : Int) (de : List String) :
    ∀ (fuel k : Nat) (isFirst : Bool),
      (∀ i, i < fuel → confAttempt jload clean ds de (oracle (k + i)) = none) →
      (confLoop jload oracle clean prompt0 ds de fuel k isFirst).1 =
        ⟨ds, de.map .str⟩ := by
  intro fuel
  induction fuel with
  | zero => intro k isFirst _; rfl
  | succ n ih =>
    intro k isFirst hfail
    simp only [confLoop]
    have h0 : confAttempt jload clean ds de (oracle k) = none := by
      have := hfail 0 (Nat.succ_pos n)
      simpa using this
    rw [h0]
    exact ih (k + 1) false (fun i hi => by
      have := hfail (i + 1) (Nat.succ_lt_succ hi)
      simpa [Nat.add_assoc, Nat.add_comm 1 i] using this)

/-- C4: in `get_confidence_and_evidence` the first attempt sends the
substituted scoring prompt and every later attempt sends the fixed
corrective re-prompt; and if every attempt within the budget fails to parse
or fails the acceptance check, the result is the default score 50 with the
default evidence placeholder. -/
theorem get_confidence_prompt_discipline (jload : String → Option PyVal)
    (oracle : Nat → String) (clean : String → String) (k : Nat)
    (icd_code description summary : String) (max_retries : Nat) :
    (get_confidence_and_evidence jload oracle clean k icd_code description
        summary max_retries 50 none).2.2 =
      confidencePrompt icd_code description summary ::
        List.replicate
          ((get_confidence_and_evidence jload oracle clean k icd_code
              description summary max_retries 50 none).2.2.length - 1)
          CORRECTIVE_PROMPT ∧
    ((∀ i, i ≤ max_retries →
        confAttempt jload clean 50 ["No evidence provided"] (oracle (k + i)) = none) →
      (get_confidence_and_evidence jload oracle clean k icd_code description
        summary max_retries 50 none).1 = ⟨50, [PyVal.str "No evidence provided"]⟩) := by
  constructor
  · exact confLoop_trace_head jload oracle clean _ 50 ["No evidence provided"]
      max_retries k
  · intro hfail
    exact confLoop_default jload oracle clean _ 50 ["No evidence provided"]
      (max_retries + 1) k true
      (fun i hi => hfail i (Nat.lt_succ_iff.mp hi))

/-- Witness for C4: with every reply unparseable, the defaults are returned. -/
theorem get_confidence_prompt_discipline_witness :
    (get_confidence_and_evidence (fun _ => none) (fun _ => "bad")
      Finaltester.clean_json_response 0 "E11.9" "d" "s" 2 50 none).1 =
      ⟨50, [PyVal.str "No evidence provided"]⟩ :=
  (get_confidence_prompt_discipline (fun _ => none) (fun _ => "bad")
    Finaltester.clean_json_response 0 "E11.9" "d" "s" 2).2 (fun _ _ => rfl)

/-- The confirmation sweep issues exactly one query per candidate, and
partitions the candidates. -/
theorem splitConfirmed_spec (oracle : Nat → String) :
    ∀ (codes : List String) (k : Nat),
      (splitConfirmed oracle k codes).2.2 = k + codes.length ∧
      (splitConfirmed oracle k codes).1.length +
        (splitConfirmed oracle k codes).2.1.length = codes.length := by
  intro codes
  induction codes with
  | nil => intro k; simp [splitConfirmed]
  | cons c cs ih =>
    intro k
    obtain ⟨ih1, ih2⟩ := ih (k + 1)
    simp only [splitConfirmed]
    by_cases hc : strContains (pyUpper (oracle k)) "CONFIRMED" = true
    · simp only [hc, if_pos, List.length_cons]
      exact ⟨by rw [ih1]; omega, by omega⟩
    · rw [Bool.not_eq_true] at hc
      simp only [hc, Bool.false_eq_true, if_false, List.length_cons]
      exact ⟨by rw [ih1]; omega, by omega⟩

/-- Resource accounting for the validation loop: at most `fuel` rounds, one
confirmation query per candidate per round, at most one alternative query
per round, and each round partitions its candidates into confirmed and
rejected. -/
theorem validateLoop_resources (parseRAG : String → Option (List String))
    (oracle : Nat → String) (ont : String → Option String) :
    ∀ (fuel k : Nat) (validated : List String) (descs : List (String × String)),
      (validateLoop parseRAG oracle ont fuel k validated descs).2.2.length ≤ fuel ∧
      (validateLoop parseRAG oracle ont fuel k validated descs).2.1 =
        k + (((validateLoop parseRAG oracle ont fuel k validated descs).2.2.map
          (fun L => L.candidates.length + (if L.alt.isSome then 1 else 0))).sum) ∧
      ((validateLoop parseRAG oracle ont fuel k validated descs).2.2.all
        (fun L => L.confirmed.length + L.rejected.length == L.candidates.length))
        = true := by
  intro fuel
  induction fuel with
  | zero => intro k validated descs; simp [validateLoop]
  | succ n ih =>
    intro k validated descs
    obtain ⟨hk, hlen⟩ := splitConfirmed_spec oracle validated k
    simp only [validateLoop]
    by_cases hr : (splitConfirmed oracle k validated).2.1 = []
    · simp only [hr, if_pos]
      refine ⟨by simp, ?_, ?_⟩
      · simp only [List.map_cons, List.map_nil, List.sum_cons, List.sum_nil]
        simp [hk]
      · simp only [List.all_cons, List.all_nil, Bool.and_true]
        rw [hr] at hlen
        simp only [Nat.beq_eq_true_eq]
        simpa using hlen
    · simp only [hr, if_neg, if_false]
      by_cases hn : extract_icd_codes parseRAG (oracle (splitConfirmed oracle k validated).2.2) = []
      · simp only [hn, if_pos]
        refine ⟨by simp, ?_, ?_⟩
        · simp only [List.map_cons, List.map_nil, List.sum_cons, List.sum_nil,
            Option.isSome_some]
          simp only [hk]
          simp
          omega
        · simp only [List.all_cons, List.all_nil, Bool.and_true,
            Nat.beq_eq_true_eq]
          exact hlen
      · simp only [hn, if_neg, if_false]
        obtain ⟨ihl, ihc, iha⟩ := ih ((splitConfirmed oracle k validated).2.2 + 1)
          (extract_icd_codes parseRAG (oracle (splitConfirmed oracle k validated).2.2))
          (get_icd_descriptions ont
            (extract_icd_codes parseRAG (oracle (splitConfirmed oracle k validated).2.2)))
        refine ⟨?_, ?_, ?_⟩
        · simpa using Nat.succ_le_succ ihl
        · simp only [List.map_cons, List.sum_cons, Option.isSome_some]
          rw [ihc]
          simp
          omega
        · simp only [List.all_cons, Bool.and_eq_true, Nat.beq_eq_true_eq]
          exact ⟨hlen, iha⟩

/-- C5: `validate_icd_codes` always terminates (its embedding is a total
function), runs at most `max_retries` validation rounds, and its oracle
consumption is exactly one confirmation query per candidate of each round
plus at most one alternative-suggestion query per round (`alt = none` when
the round ended with every candidate confirmed); each round's confirmation
queries partition that round's candidate set. -/
theorem validate_icd_codes_resources (parseRAG : String → Option (List String))
    (oracle : Nat → String) (ont : String → Option String)
    (icd_codes : List String) (descriptions : List (String × String))
    (summary : String) (max_retries : Nat) :
    (validateRun parseRAG oracle ont icd_codes descriptions summary
        max_retries).logs.length ≤ max_retries ∧
    (validateRun parseRAG oracle ont icd_codes descriptions summary
        max_retries).calls =
      ((validateRun parseRAG oracle ont icd_codes descriptions summary
          max_retries).logs.map
        (fun L => L.candidates.length + (if L.alt.isSome then 1 else 0))).sum ∧
    ((validateRun parseRAG oracle ont icd_codes descriptions summary
        max_retries).logs.all
      (fun L => L.confirmed.length + L.rejected.length == L.candidates.length))
      = true := by
  obtain ⟨h1, h2, h3⟩ := validateLoop_resources parseRAG oracle ont max_retries 0
    icd_codes descriptions
  unfold validateRun
  exact ⟨h1, by simpa using h2, h3⟩

/-- Appending to a nonempty log list does not change its last element. -/
theorem lastLog_cons_ne (L : RoundLog) (Ls : List RoundLog) (h : Ls ≠ []) :
    lastLog (L :: Ls) = lastLog Ls := by
  cases Ls with
  | nil => exact absurd rfl h
  | cons x xs => rfl

/-- `lastLog` is `none` exactly on the empty list. -/
theorem lastLog_eq_none_iff (Ls : List RoundLog) :
    lastLog Ls = none ↔ Ls = [] := by
  induction Ls with
  | nil => simp [lastLog]
  | cons a rest ih =>
    cases rest with
    | nil => simp [lastLog]
    | cons b rs =>
      rw [lastLog_cons_ne a (b :: rs) (by simp)]
      rw [ih]
      simp

/-- Flag/result characterization of the validation loop. -/
theorem validateLoop_flag_spec (parseRAG : String → Option (List String))
    (oracle : Nat → String) (ont : String → Option String) :
    ∀ (fuel k : Nat) (validated : List String) (descs : List (String × String)),
      ((validateLoop parseRAG oracle ont fuel k validated descs).1.2 = true →
        ∃ L, lastLog (validateLoop parseRAG oracle ont fuel k validated descs).2.2
            = some L ∧
          (validateLoop parseRAG oracle ont fuel k validated descs).1.1
            = L.confirmed ∧
          (L.rejected = [] ∨ L.alt = some [])) ∧
      ((validateLoop parseRAG oracle ont fuel k validated descs).1.2 = false →
        (validateLoop parseRAG oracle ont fuel k validated descs).2.2.length = fuel ∧
        (match lastLog (validateLoop parseRAG oracle ont fuel k validated descs).2.2 with
         | none =>
            (validateLoop parseRAG oracle ont fuel k validated descs).1.1 = validated
         | some L =>
            L.alt = some ((validateLoop parseRAG oracle ont fuel k validated descs).1.1))) := by
  intro fuel
  induction fuel with
  | zero =>
    intro k validated descs
    exact ⟨fun h => absurd h (by simp [validateLoop]), fun _ => ⟨rfl, rfl⟩⟩
  | succ n ih =>
    intro k validated descs
    simp only [validateLoop]
    by_cases hr : (splitConfirmed oracle k validated).2.1 = []
    · simp only [hr, if_pos]
      refine ⟨fun _ => ⟨⟨validated, (splitConfirmed oracle k validated).1, [], none⟩, ?_, rfl, Or.inl rfl⟩,
        fun h => absurd h (by simp)⟩
      rfl
    · simp only [hr, if_neg, if_false]
      by_cases hn : extract_icd_codes parseRAG
          (oracle (splitConfirmed oracle k validated).2.2) = []
      · simp only [hn, if_pos]
        exact ⟨fun _ => ⟨⟨validated, (splitConfirmed oracle k validated).1,
            (splitConfirmed oracle k validated).2.1, some []⟩, rfl, rfl, Or.inr rfl⟩,
          fun h => absurd h (by simp)⟩
      · simp only [hn, if_neg, if_false]
        obtain ⟨ih1, ih2⟩ := ih ((splitConfirmed oracle k validated).2.2 + 1)
          (extract_icd_codes parseRAG (oracle (splitConfirmed oracle k validated).2.2))
          (get_icd_descriptions ont
            (extract_icd_codes parseRAG (oracle (splitConfirmed oracle k validated).2.2)))
        constructor
        · intro h
          obtain ⟨L, hL, hcodes, hdisj⟩ := ih1 h
          refine ⟨L, ?_, hcodes, hdisj⟩
          rw [lastLog_cons_ne]
          · exact hL
          · intro hemp
            rw [hemp] at hL
            exact Option.noConfusion hL
        · intro h
          obtain ⟨hlen, hmatch⟩ := ih2 h
          refine ⟨by simp [hlen], ?_⟩
          by_cases hemp : (validateLoop parseRAG oracle ont n
              ((splitConfirmed oracle k validated).2.2 + 1)
              (extract_icd_codes parseRAG (oracle (splitConfirmed oracle k validated).2.2))
              (get_icd_descriptions ont (extract_icd_codes parseRAG
                (oracle (splitConfirmed oracle k validated).2.2)))).2.2 = []
          · rw [hemp]
            rw [hemp] at hmatch
            have hnone : lastLog ([] : List RoundLog) = none := rfl
            rw [hnone] at hmatch
            simp only [lastLog]
            rw [hmatch]
          · rw [lastLog_cons_ne _ _ hemp]
            cases hLL : lastLog (validateLoop parseRAG oracle ont n
                ((splitConfirmed oracle k validated).2.2 + 1)
                (extract_icd_codes parseRAG (oracle (splitConfirmed oracle k validated).2.2))
                (get_icd_descriptions ont (extract_icd_codes parseRAG
                  (oracle (splitConfirmed oracle k validated).2.2)))).2.2 with
            | none => exact absurd ((lastLog_eq_none_iff _).mp hLL) hemp
            | some L =>
              rw [hLL] at hmatch
              exact hmatch

/-- C1 (amended): `validate_icd_codes` returns `(confirmed, true)` when a
round confirms all of its candidates (`L.rejected = []`) or when the
rejected candidates yield no extractable alternative codes
(`L.alt = some []`) — in the latter case the final candidate set may contain
unconfirmed codes although the flag is `true` — and it returns the current
(possibly never-confirmed) candidate set with flag `false` exactly when all
`max_retries` rounds are used up. -/
theorem validate_icd_codes_flag_spec (parseRAG : String → Option (List String))
    (oracle : Nat → String) (ont : String → Option String)
    (icd_codes : List String) (descriptions : List (String × String))
    (summary : String) (max_retries : Nat) :
    ((validate_icd_codes parseRAG oracle ont icd_codes descriptions summary
        max_retries).2 = true →
      ∃ L, lastLog (validateRun parseRAG oracle ont icd_codes descriptions
          summary max_retries).logs = some L ∧
        (validate_icd_codes parseRAG oracle ont icd_codes descriptions summary
          max_retries).1 = L.confirmed ∧
        (L.rejected = [] ∨ L.alt = some [])) ∧
    ((validate_icd_codes parseRAG oracle ont icd_codes descriptions summary
        max_retries).2 = false →
      (validateRun parseRAG oracle ont icd_codes descriptions summary
        max_retries).logs.length = max_retries ∧
      (match lastLog (validateRun parseRAG oracle ont icd_codes descriptions
          summary max_retries).logs with
       | none => (validate_icd_codes parseRAG oracle ont icd_codes descriptions
          summary max_retries).1 = icd_codes
       | some L => L.alt = some ((validate_icd_codes parseRAG oracle ont
          icd_codes descriptions summary max_retries).1))) :=
  validateLoop_flag_spec parseRAG oracle ont max_retries 0 icd_codes descriptions

/-- Witness for C1's amended theorem at a concrete confirming run. -/
theorem validate_icd_codes_flag_spec_witness :
    ∃ L, lastLog (validateRun (fun _ => none) (fun _ => "CONFIRMED")
        (fun _ => none) ["A1"] [] "" 2).logs = some L ∧
      (validate_icd_codes (fun _ => none) (fun _ => "CONFIRMED")
        (fun _ => none) ["A1"] [] "" 2).1 = L.confirmed ∧
      (L.rejected = [] ∨ L.alt = some []) :=
  (validate_icd_codes_flag_spec (fun _ => none) (fun _ => "CONFIRMED")
    (fun _ => none) ["A1"] [] "" 2).1 (by decide)

/-- C1 counterexample: when a rejected candidate's alternative query yields
no codes, `validate_icd_codes` returns flag `true` although the final
round's candidate set `["A1"]` contains a code that was never confirmed at
any point of the run — so the flag is not "true exactly when all codes in
the final candidate set were confirmed". -/
theorem validate_icd_codes_flag_counterexample :
    (validate_icd_codes (fun _ => none) (fun n => if n = 0 then "NO" else "nope")
      (fun _ => none) ["A1"] [] "" 2).2 = true ∧
    lastLog (validateRun (fun _ => none) (fun n => if n = 0 then "NO" else "nope")
      (fun _ => none) ["A1"] [] "" 2).logs =
      some ⟨["A1"], [], ["A1"], some []⟩ ∧
    "A1" ∉ ((validateRun (fun _ => none) (fun n => if n = 0 then "NO" else "nope")
      (fun _ => none) ["A1"] [] "" 2).logs.map (fun L => L.confirmed)).flatten := by
  exact ⟨by decide, by decide, by decide⟩

/-- Every result entry of the `agent.py` confidence fold carries its code. -/
theorem Agent_confFold_codes (jload : String → Option PyVal)
    (oracle : Nat → String) (ont : String → Option String) (summary : String) :
    ∀ (codes : List String) (k : Nat),
      (Agent.confFold jload oracle ont summary k codes).map
        (fun r => r.icd_code) = codes := by
  intro codes
  induction codes with
  | nil => intro k; rfl
  | cons c cs ih =>
    intro k
    simp only [Agent.confFold, List.map_cons, List.cons.injEq]
    exact ⟨trivial, ih _⟩

/-- Every result entry of the `finaltester.py` confidence fold carries its
code. -/
theorem Finaltester_confFold_codes (jload : String → Option PyVal)
    (oracle : Nat → String) (ont : String → Option String) (summary : String) :
    ∀ (codes : List String) (k : Nat),
      (Finaltester.confFold jload oracle ont summary k codes).map
        (fun r => r.code) = codes := by
  intro codes
  induction codes with
  | nil => intro k; rfl
  | cons c cs ih =>
    intro k
    simp only [Finaltester.confFold, List.map_cons, List.cons.injEq]
    exact ⟨trivial, ih _⟩

/-- C9: both `process_model_icd_codes` drivers return at most `num_codes`
result entries — one per retained code, in order: in both scripts the
entries' code fields are exactly the first `num_codes` validated codes, even
when the validation loop's alternative suggestions grow the candidate set
beyond `num_codes`. -/
theorem process_model_icd_codes_bounded (parseRAG : String → Option (List String))
    (jload : String → Option PyVal) (oracle : Nat → String)
    (ont : String → Option String) (rag_output : RagInput) (num_codes : Nat) :
    (Agent.process_model_icd_codes parseRAG jload oracle ont rag_output
        num_codes).length ≤ num_codes ∧
    (Agent.process_model_icd_codes parseRAG jload oracle ont rag_output
        num_codes).map (fun r => r.icd_code) =
      (validateRun parseRAG oracle ont
        ((rag_output.finalCodes.getD []).take num_codes)
        (get_icd_descriptions ont ((rag_output.finalCodes.getD []).take num_codes))
        (String.intercalate "\n" (rag_output.content.getD [])) 3).codes.take
        num_codes ∧
    (Finaltester.process_model_icd_codes parseRAG jload oracle ont rag_output
        num_codes).length ≤ num_codes ∧
    (Finaltester.process_model_icd_codes parseRAG jload oracle ont rag_output
        num_codes).map (fun r => r.code) =
      (validateRun parseRAG oracle ont
        (if rag_output.dxCodes.isSome then (rag_output.dxCodes.getD []).take num_codes
         else (rag_output.finalCodes.getD []).take num_codes)
        (get_icd_descriptions ont
          (if rag_output.dxCodes.isSome then (rag_output.dxCodes.getD []).take num_codes
           else (rag_output.finalCodes.getD []).take num_codes))
        (if rag_output.summaryInfo.isSome then
          String.intercalate "\n" (rag_output.summaryInfo.getD [])
         else String.intercalate "\n" (rag_output.content.getD [])) 3).codes.take
        num_codes := by
  refine ⟨?_, ?_, ?_, ?_⟩
  · have h := Agent_confFold_codes jload oracle ont
      (String.intercalate "\n" (rag_output.content.getD []))
      ((validateRun parseRAG oracle ont
        ((rag_output.finalCodes.getD []).take num_codes)
        (get_icd_descriptions ont ((rag_output.finalCodes.getD []).take num_codes))
        (String.intercalate "\n" (rag_output.content.getD [])) 3).codes.take
        num_codes)
      ((validateRun parseRAG oracle ont
        ((rag_output.finalCodes.getD []).take num_codes)
        (get_icd_descriptions ont ((rag_output.finalCodes.getD []).take num_codes))
        (String.intercalate "\n" (rag_output.content.getD [])) 3).calls)
    have hlen := congrArg List.length h
    rw [List.length_map] at hlen
    unfold Agent.process_model_icd_codes
    rw [hlen]
    exact List.length_take_le _ _
  · exact Agent_confFold_codes jload oracle ont _ _ _
  · have h := Finaltester_confFold_codes jload oracle ont
      (if rag_output.summaryInfo.isSome then
        String.intercalate "\n" (rag_output.summaryInfo.getD [])
       else String.intercalate "\n" (rag_output.content.getD []))
      ((validateRun parseRAG oracle ont
        (if rag_output.dxCodes.isSome then (rag_output.dxCodes.getD []).take num_codes
         else (rag_output.finalCodes.getD []).take num_codes)
        (get_icd_descriptions ont
          (if rag_output.dxCodes.isSome then (rag_output.dxCodes.getD []).take num_codes
           else (rag_output.finalCodes.getD []).take num_codes))
        (if rag_output.summaryInfo.isSome then
          String.intercalate "\n" (rag_output.summaryInfo.getD [])
         else String.intercalate "\n" (rag_output.content.getD [])) 3).codes.take
        num_codes)
      ((validateRun parseRAG oracle ont
        (if rag_output.dxCodes.isSome then (rag_output.dxCodes.getD []).take num_codes
         else (rag_output.finalCodes.getD []).take num_codes)
        (get_icd_descriptions ont
          (if rag_output.dxCodes.isSome then (rag_output.dxCodes.getD []).take num_codes
           else (rag_output.finalCodes.getD []).take num_codes))
        (if rag_output.summaryInfo.isSome then
          String.intercalate "\n" (rag_output.summaryInfo.getD [])
         else String.intercalate "\n" (rag_output.content.getD [])) 3).calls)
    have hlen := congrArg List.length h
    rw [List.length_map] at hlen
    unfold Finaltester.process_model_icd_codes
    rw [hlen]
    exact List.length_take_le _ _
  · exact Finaltester_confFold_codes jload oracle ont _ _ _
